import Mathlib

/-
Verification of the execution engine of `build_agent.py` (infracycle-agent).

The engine (`execute_build_stages` and its nested helper `process_single_item`)
runs a batch of jobs; each job is a list of stages; each stage holds a map from
task-kind name to a task configuration and an `ignore_failure` flag.  The
dispatcher walks a hard-coded chain of task kinds; each enabled task is handed
to its handler, which performs external commands and mutates a shared summary
of three counters.

The embedding below translates the control flow and every summary mutation of
the source.  The outcome of each external command (subprocess result, SMTP
send, interactive approval) is an input to the model, carried in per-stage
environment records; everything else (echoed text, command strings) has no
observable effect on the modelled state and is dropped.  Python exceptions are
modelled by the `PyRes.raised` constructor; a summary mutated before a raise is
kept, matching in-place mutation in the source.
-/

/-- Summary: the shared counter record created at the start of
`execute_build_stages` (src/build_agent.py:35). -/
structure Summary where
  completed : Nat
  failed : Nat
  uploaded : Nat
deriving Repr, DecidableEq

/-- Summary.init: `{"completed": 0, "failed": 0, "uploaded": 0}` (line 35). -/
def Summary.init : Summary := ⟨0, 0, 0⟩

/-- Summary.addCompleted: `summary["completed"] += 1`. -/
def Summary.addCompleted (s : Summary) : Summary := { s with completed := s.completed + 1 }

/-- Summary.addFailed: `summary["failed"] += 1`. -/
def Summary.addFailed (s : Summary) : Summary := { s with failed := s.failed + 1 }

/-- PyRes: the result of running a Python block that may raise; a raise carries
no value but the summary mutated before it survives (in-place mutation). -/
inductive PyRes (α : Type) where
  | ok (v : α)
  | raised
deriving Repr, DecidableEq

/-- EmailConfig: the `email_config` mapping read by `send_email_notification`
(src/build_agent.py:749-752); every key is optional (`dict.get`). -/
structure EmailConfig where
  smtp_server : Option String := none
  smtp_port : Option Nat := none
  sender_email : Option String := none
  sender_password : Option String := none
deriving Repr, DecidableEq

/-- TaskConfig: the per-task configuration mapping.  Every key the source reads
with `dict.get` is an optional field here; `none` models an absent key (Python
`None`, falsy). -/
structure TaskConfig where
  enabled : Option Bool := none
  clone_dir : Option String := none
  source_url : Option String := none
  branches : Option (List String) := none
  private_repo : Option Bool := none
  username : Option String := none
  token : Option String := none
  dockerfile_path : Option String := none
  build_tag : Option String := none
  image_name : Option String := none
  password : Option String := none
  repository : Option String := none
  built_image_name : Option String := none
  image_tag : Option String := none
  steps : Option (List String) := none
  project_pom : Option String := none
  goals : Option String := none
  profiles : Option String := none
  output_dir : Option String := none
  task_name : Option String := none
  recipients : Option (List String) := none
  email_config : Option EmailConfig := none
  target : Option String := none
  target_type : Option String := none
  severity : Option String := none
  server_url : Option String := none
  project_key : Option String := none
  source_dir : Option String := none
deriving Repr, DecidableEq

instance : Inhabited TaskConfig := ⟨{}⟩

/-- strTruthy: Python truthiness of `d.get(key)` for a string value: an absent
key gives `None` (falsy) and the empty string is falsy. -/
def strTruthy : Option String → Bool
  | none => false
  | some s => s ≠ ""

/-- optTruthy: Python truthiness of the value returned by
`setup_and_clone_repository` (`None` or a directory string). -/
def optTruthy : Option String → Bool
  | none => false
  | some d => d ≠ ""

/-- CloneEnv: outcome of each external command issued by
`setup_and_clone_repository`.  `gitInstalled` is the `git --version` probe
(line 1054); `aptGitOk` the `apt-get install git` run with `check=True` (line
1058, raises on failure); `prepareOk` the `rm -rf && mkdir -p` run with
`check=True` (line 1063); `cloneOk` the `git clone` of the first branch (line
1079, wrapped in try/except); `fetchOk` the `git fetch` with `check=True` (line
1089); `checkoutOks` the per-extra-branch `git checkout` results (line 1094). -/
structure CloneEnv where
  gitInstalled : Bool := true
  aptGitOk : Bool := true
  prepareOk : Bool := true
  cloneOk : Bool := true
  fetchOk : Bool := true
  checkoutOks : List Bool := []
deriving Repr, DecidableEq

/-- HubEnv: outcome of each external command issued by `push_to_docker_hub`:
the `docker --version` probe (line 926), the `apt-get install docker.io` with
`check=True` (line 930, raises on failure), the login (line 936), the tag
(line 945) and the push (line 954), the last three wrapped in try/except. -/
structure HubEnv where
  dockerOk : Bool := true
  aptOk : Bool := true
  loginOk : Bool := true
  tagOk : Bool := true
  pushOk : Bool := true
deriving Repr, DecidableEq

/-- MavenEnv: outcome of the `mvn` build (line 707) and of the artifact move
run with `check=True` (line 726, raises on failure). -/
structure MavenEnv where
  buildOk : Bool := true
  moveOk : Bool := true
deriving Repr, DecidableEq

/-- checkoutBranches: the loop over `branches[1:]` of
`setup_and_clone_repository` (src/build_agent.py:1091-1100): each successful
checkout adds one to `completed`; the first failing checkout adds one to
`failed` and returns `None`.  The environment list is consumed positionally; an
exhausted environment reads as a failing command. -/
def checkoutBranches (branches : List String) (oks : List Bool) (s : Summary)
    (clone_dir : String) : Summary × PyRes (Option String) :=
  match branches, oks with
  | [], _ => (s, .ok (some clone_dir))
  | _b :: bs, ok :: oks' =>
      if ok then checkoutBranches bs oks' s.addCompleted clone_dir
      else (s.addFailed, .ok none)
  | _b :: _bs, [] => (s.addFailed, .ok none)

/-- setup_and_clone_repository (src/build_agent.py:1029-1102).  Returns the
clone directory on success, `none` on a recorded failure; raises when an
unguarded `check=True` subprocess fails or when `branches` is the empty list
(`branches[0]` raises IndexError, line 1076). -/
def setup_and_clone_repository (cfg : TaskConfig) (env : CloneEnv) (s : Summary) :
    Summary × PyRes (Option String) :=
  let clone_dir := cfg.clone_dir.getD "/tmp/clone_repo_trial"
  let source_url := cfg.source_url.getD ""
  let branches := cfg.branches.getD ["main"]
  let private_repo := cfg.private_repo.getD false
  let username := cfg.username.getD ""
  let tok := cfg.token.getD ""
  if source_url = "" then (s.addFailed, .ok none)
  else if ¬env.gitInstalled ∧ ¬env.aptGitOk then (s, .raised)
  else if ¬env.prepareOk then (s, .raised)
  else if private_repo ∧ (username = "" ∨ tok = "") then (s.addFailed, .ok none)
  else
    match branches with
    | [] => (s, .raised)
    | _first :: rest =>
        if env.cloneOk then
          let s1 := s.addCompleted
          if rest.isEmpty then (s1, .ok (some clone_dir))
          else if ¬env.fetchOk then (s1, .raised)
          else checkoutBranches rest env.checkoutOks s1 clone_dir
        else (s.addFailed, .ok none)

/-- docker_build (src/build_agent.py:989-1028).  `check_docker_installation`
(lines 962-977) never raises (the install is wrapped in try/except inside
`install_docker`) and touches no counter, so it leaves no trace here.  The
`clone_dir` argument only feeds command strings. -/
def docker_build (task : TaskConfig) (_clone_dir : String) (buildOk : Bool) (s : Summary) :
    Summary × PyRes Bool :=
  if ¬(task.enabled.getD false) then (s, .ok false)
  else if buildOk then (s.addCompleted, .ok true)
  else (s.addFailed, .ok false)

/-- push_to_docker_hub (src/build_agent.py:899-961).  A missing or empty
`built_image_name` is a recorded failure (line 917); the `apt-get install
docker.io` run with `check=True` (line 930) may raise. -/
def push_to_docker_hub (cfg : TaskConfig) (env : HubEnv) (s : Summary) :
    Summary × PyRes Bool :=
  if ¬strTruthy cfg.built_image_name then (s.addFailed, .ok false)
  else if ¬env.dockerOk ∧ ¬env.aptOk then (s, .raised)
  else if ¬env.loginOk then (s.addFailed, .ok false)
  else if ¬env.tagOk then (s.addFailed, .ok false)
  else if env.pushOk then (s.addCompleted, .ok true)
  else (s.addFailed, .ok false)

/-- runStepsLoop: the step loop shared verbatim by `run_shell_steps`
(src/build_agent.py:821-834) and `run_bash_steps` (856-869): each successful
step adds one to `completed`; the first failing step adds one to `failed` and
returns `False`; if every step succeeds the loop returns `True`. -/
def runStepsLoop (steps : List String) (oks : List Bool) (s : Summary) :
    Summary × PyRes Bool :=
  match steps, oks with
  | [], _ => (s, .ok true)
  | _c :: cs, ok :: oks' =>
      if ok then runStepsLoop cs oks' s.addCompleted
      else (s.addFailed, .ok false)
  | _c :: _cs, [] => (s.addFailed, .ok false)

/-- run_shell_steps (src/build_agent.py:800-834).  Disabled or an empty `steps`
list returns `False` without touching any counter (lines 811-819). -/
def run_shell_steps (cfg : TaskConfig) (stepOks : List Bool) (s : Summary) :
    Summary × PyRes Bool :=
  if ¬(cfg.enabled.getD false) then (s, .ok false)
  else
    let steps := cfg.steps.getD []
    if steps.isEmpty then (s, .ok false)
    else runStepsLoop steps stepOks s

/-- run_bash_steps (src/build_agent.py:835-869): textually the same logic as
`run_shell_steps`. -/
def run_bash_steps (cfg : TaskConfig) (stepOks : List Bool) (s : Summary) :
    Summary × PyRes Bool :=
  if ¬(cfg.enabled.getD false) then (s, .ok false)
  else
    let steps := cfg.steps.getD []
    if steps.isEmpty then (s, .ok false)
    else runStepsLoop steps stepOks s

/-- run_maven_build (src/build_agent.py:674-730).  On a successful `mvn` run
the artifact move is executed with `check=True` (line 726) before
`completed` is incremented, so a failing move raises with no counter change
for this invocation. -/
def run_maven_build (cfg : TaskConfig) (_clone_dir : String) (env : MavenEnv) (s : Summary) :
    Summary × PyRes Bool :=
  if ¬(cfg.enabled.getD false) then (s, .ok false)
  else if ¬env.buildOk then (s.addFailed, .ok false)
  else if ¬env.moveOk then (s, .raised)
  else (s.addCompleted, .ok true)

/-- send_email_notification (src/build_agent.py:736-776): incomplete SMTP
configuration returns `False`; otherwise the result is the SMTP send outcome
(the send itself is wrapped in try/except, lines 767-776, so it never raises).
Touches no counter. -/
def send_email_notification (email_cfg : EmailConfig) (sendOk : Bool) : Bool :=
  if strTruthy email_cfg.smtp_server ∧ (email_cfg.smtp_port.getD 0 ≠ 0)
      ∧ strTruthy email_cfg.sender_email ∧ strTruthy email_cfg.sender_password then
    sendOk
  else false

/-- notify_on_task_completion (src/build_agent.py:777-798): missing recipients
or a missing/empty `email_config` mapping returns `False`; the inner call is
additionally wrapped in try/except, so this function never raises.  `none`
models both an absent `email_config` key and an empty mapping (both falsy). -/
def notify_on_task_completion (recipients : List String) (email_cfg : Option EmailConfig)
    (sendOk : Bool) : Bool :=
  match email_cfg with
  | none => false
  | some ec => if recipients.isEmpty then false else send_email_notification ec sendOk

/-- request_approval (src/build_agent.py:731-734): an interactive prompt whose
answer is an input of the model. -/
def request_approval (approved : Bool) : Bool := approved

/-- run_gradle_build (src/build_agent.py:581-628).  The `enabled` default here
is `True` (line 593); the gradlew probe (line 603) only selects a command
string. -/
def run_gradle_build (cfg : TaskConfig) (_clone_dir : String) (buildOk : Bool) (s : Summary) :
    Summary × PyRes Bool :=
  if ¬(cfg.enabled.getD true) then (s, .ok false)
  else if buildOk then (s.addCompleted, .ok true)
  else (s.addFailed, .ok false)

/-- run_trivy_scan (src/build_agent.py:542-580): no `enabled` check of its own;
every configuration key only feeds the command string. -/
def run_trivy_scan (_cfg : TaskConfig) (scanOk : Bool) (s : Summary) :
    Summary × PyRes Bool :=
  if scanOk then (s.addCompleted, .ok true) else (s.addFailed, .ok false)

/-- run_yarn_build (src/build_agent.py:341-391): a failing `yarn install` is a
recorded failure before the build is attempted. -/
def run_yarn_build (cfg : TaskConfig) (_clone_dir : String) (installOk buildOk : Bool)
    (s : Summary) : Summary × PyRes Bool :=
  if ¬(cfg.enabled.getD true) then (s, .ok false)
  else if ¬installOk then (s.addFailed, .ok false)
  else if buildOk then (s.addCompleted, .ok true)
  else (s.addFailed, .ok false)

/-- run_go_build (src/build_agent.py:497-540): `go mod init` and `go get` are
run without `check` and their results ignored (lines 516-521). -/
def run_go_build (cfg : TaskConfig) (_clone_dir : String) (buildOk : Bool) (s : Summary) :
    Summary × PyRes Bool :=
  if ¬(cfg.enabled.getD true) then (s, .ok false)
  else if buildOk then (s.addCompleted, .ok true)
  else (s.addFailed, .ok false)

/-- run_npm_build (src/build_agent.py:446-496): same shape as the Yarn build. -/
def run_npm_build (cfg : TaskConfig) (_clone_dir : String) (installOk buildOk : Bool)
    (s : Summary) : Summary × PyRes Bool :=
  if ¬(cfg.enabled.getD true) then (s, .ok false)
  else if ¬installOk then (s.addFailed, .ok false)
  else if buildOk then (s.addCompleted, .ok true)
  else (s.addFailed, .ok false)

/-- run_sonar_analysis (src/build_agent.py:392-445): an incomplete
configuration (`server_url`, `project_key`, `token`) is a recorded failure
(lines 415-418). -/
def run_sonar_analysis (cfg : TaskConfig) (_clone_dir : String) (scanOk : Bool) (s : Summary) :
    Summary × PyRes Bool :=
  if ¬(cfg.enabled.getD true) then (s, .ok false)
  else if ¬(strTruthy cfg.server_url ∧ strTruthy cfg.project_key ∧ strTruthy cfg.token) then
    (s.addFailed, .ok false)
  else if scanOk then (s.addCompleted, .ok true)
  else (s.addFailed, .ok false)

/-- TaskKind: the task kinds the dispatcher chain of `process_single_item`
recognises (src/build_agent.py:68,83,99,118,134,150,167,194,211,228,245,262,
279,296), in their source order. -/
inductive TaskKind where
  | setup_and_clone
  | docker_build
  | docker_hub
  | sh
  | bash
  | maven
  | send_notification
  | gradle
  | trivy
  | yarn
  | go_build
  | npm
  | sonarqube_analysis
  | request_approval
deriving Repr, DecidableEq

/-- kindName: the exact configuration key the dispatcher looks up for each
task kind. -/
def kindName : TaskKind → String
  | .setup_and_clone => "setup_and_clone"
  | .docker_build => "docker_build"
  | .docker_hub => "docker_hub"
  | .sh => "sh"
  | .bash => "bash"
  | .maven => "maven"
  | .send_notification => "send_notification"
  | .gradle => "gradle"
  | .trivy => "trivy"
  | .yarn => "yarn"
  | .go_build => "go_build"
  | .npm => "npm"
  | .sonarqube_analysis => "sonarqube_analysis"
  | .request_approval => "request_approval"

/-- canonicalOrder: the engine-fixed dispatch order, i.e. the textual order of
the if-blocks of `process_single_item` (src/build_agent.py:66-314). -/
def canonicalOrder : List TaskKind :=
  [.setup_and_clone, .docker_build, .docker_hub, .sh, .bash, .maven,
   .send_notification, .gradle, .trivy, .yarn, .go_build, .npm,
   .sonarqube_analysis, .request_approval]

/-- StageSpec: one stage configuration (src/build_agent.py:60-62): an optional
name, a task map (modelled as an association list with string keys, as parsed
from the YAML mapping) and an optional `ignore_failure` flag (default false). -/
structure StageSpec where
  name : Option String := none
  tasks : List (String × TaskConfig) := []
  ignore_failure : Option Bool := none
deriving Repr, DecidableEq

/-- lookupTask: `tasks.get(kind, {})` (the `tasks.get(..., {})` calls of the
dispatcher): the first binding for the key, or the empty configuration. -/
def lookupTask (tasks : List (String × TaskConfig)) (k : String) : TaskConfig :=
  match tasks.find? (fun p => p.1 == k) with
  | some p => p.2
  | none => {}

/-- StageEnv: the external-world outcomes consumed by the handlers of one
stage (one handler invocation per kind at most, since a stage's task map has
at most one entry per kind). -/
structure StageEnv where
  clone : CloneEnv := {}
  dockerBuildOk : Bool := true
  hub : HubEnv := {}
  shStepOks : List Bool := []
  bashStepOks : List Bool := []
  maven : MavenEnv := {}
  sendOk : Bool := true
  gradleBuildOk : Bool := true
  trivyOk : Bool := true
  yarnInstallOk : Bool := true
  yarnBuildOk : Bool := true
  goBuildOk : Bool := true
  npmInstallOk : Bool := true
  npmBuildOk : Bool := true
  sonarOk : Bool := true
  approved : Bool := true
deriving Repr, DecidableEq

/-- Event: the record of one handler invocation, as observed by the
dispatcher: the task kind, the `ignore_failure` flag of the owning stage, and
the dispatcher-observed result (`ok b` is the truthiness of the returned
value; `raised` an exception escaping the handler). -/
structure Event where
  kind : TaskKind
  ignore_failure : Bool
  res : PyRes Bool
deriving Repr, DecidableEq

/-- BlockRes: how one if-block of the dispatcher chain ends: fall through to
the next block, execute `return` (aborting the whole job), or raise to the
stage boundary. -/
inductive BlockRes where
  | cont
  | abortJob
  | raised
deriving Repr, DecidableEq

/-- CloneVar: the dispatcher-local variable `clone_dir`: `none` models the
variable being unbound (reading it raises UnboundLocalError); `some v` models
`clone_dir = v` where `v` is the value returned by the clone handler
(possibly Python `None`, modelled as `some none`). -/
abbrev CloneVar := Option (Option String)

/-- pyStrOfOpt: the string a bound `clone_dir` contributes to an f-string
command (Python renders `None` as the text `None`); command strings have no
observable effect, the value is kept only for shape. -/
def pyStrOfOpt : Option String → String
  | none => "None"
  | some x => x

/-- InvokeOut: the outcome of evaluating one handler call site: either the
handler ran (returning a truthiness and possibly a new `clone_dir` binding),
or evaluating the `clone_dir` argument raised UnboundLocalError before any
handler ran. -/
inductive InvokeOut where
  | res (s : Summary) (r : PyRes Bool) (cv : CloneVar)
  | unbound
deriving Repr, DecidableEq

/-- needsCloneDir: the kinds whose call site passes the local `clone_dir`
(src/build_agent.py:87,154,198,232,249,266,283). -/
def needsCloneDir : TaskKind → Bool
  | .docker_build | .maven | .gradle | .yarn | .go_build | .npm | .sonarqube_analysis => true
  | _ => false

/-- dispatcherCounts: the kinds whose success is counted by the dispatcher
itself (`summary["completed"] += 1` at src/build_agent.py:180,303) because
their handler does not touch the summary. -/
def dispatcherCounts : TaskKind → Bool
  | .send_notification | .request_approval => true
  | _ => false

/-- invokeTask: evaluate the handler call site of kind `k` with configuration
`cfg`: resolve the `clone_dir` argument where the source passes it, run the
handler, and coerce its returned value to the truthiness the dispatcher
branches on.  For `setup_and_clone` the returned value is also bound to
`clone_dir` (src/build_agent.py:71). -/
def invokeTask (k : TaskKind) (cfg : TaskConfig) (env : StageEnv) (cv : CloneVar)
    (s : Summary) : InvokeOut :=
  match k with
  | .setup_and_clone =>
      match setup_and_clone_repository cfg env.clone s with
      | (s1, .raised) => .res s1 .raised cv
      | (s1, .ok v) => .res s1 (.ok (optTruthy v)) (some v)
  | .docker_build =>
      match cv with
      | none => .unbound
      | some cd =>
          match docker_build cfg (pyStrOfOpt cd) env.dockerBuildOk s with
          | (s1, r) => .res s1 r cv
  | .docker_hub =>
      match push_to_docker_hub cfg env.hub s with
      | (s1, r) => .res s1 r cv
  | .sh =>
      match run_shell_steps cfg env.shStepOks s with
      | (s1, r) => .res s1 r cv
  | .bash =>
      match run_bash_steps cfg env.bashStepOks s with
      | (s1, r) => .res s1 r cv
  | .maven =>
      match cv with
      | none => .unbound
      | some cd =>
          match run_maven_build cfg (pyStrOfOpt cd) env.maven s with
          | (s1, r) => .res s1 r cv
  | .send_notification =>
      .res s (.ok (notify_on_task_completion (cfg.recipients.getD []) cfg.email_config
        env.sendOk)) cv
  | .gradle =>
      match cv with
      | none => .unbound
      | some cd =>
          match run_gradle_build cfg (pyStrOfOpt cd) env.gradleBuildOk s with
          | (s1, r) => .res s1 r cv
  | .trivy =>
      match run_trivy_scan cfg env.trivyOk s with
      | (s1, r) => .res s1 r cv
  | .yarn =>
      match cv with
      | none => .unbound
      | some cd =>
          match run_yarn_build cfg (pyStrOfOpt cd) env.yarnInstallOk env.yarnBuildOk s with
          | (s1, r) => .res s1 r cv
  | .go_build =>
      match cv with
      | none => .unbound
      | some cd =>
          match run_go_build cfg (pyStrOfOpt cd) env.goBuildOk s with
          | (s1, r) => .res s1 r cv
  | .npm =>
      match cv with
      | none => .unbound
      | some cd =>
          match run_npm_build cfg (pyStrOfOpt cd) env.npmInstallOk env.npmBuildOk s with
          | (s1, r) => .res s1 r cv
  | .sonarqube_analysis =>
      match cv with
      | none => .unbound
      | some cd =>
          match run_sonar_analysis cfg (pyStrOfOpt cd) env.sonarOk s with
          | (s1, r) => .res s1 r cv
  | .request_approval =>
      .res s (.ok (request_approval env.approved)) cv

/-- afterResult: the failure-handling tail shared by every dispatcher block
(the pattern at src/build_agent.py:88-95 and its thirteen copies): a truthy
result falls through; a falsy result adds one to `failed` and, when
`ignore_failure` is false, executes `return`. -/
def afterResult (b : Bool) (ign : Bool) (s : Summary) : Summary × BlockRes :=
  if b then (s, .cont)
  else
    let s1 := s.addFailed
    if ign then (s1, .cont) else (s1, .abortJob)

/-- runTaskCore: one if-block of the dispatcher chain for kind `k`, given the
already looked-up configuration and the stage's `ignore_failure` flag: skip
silently when not enabled; otherwise invoke the handler and apply
`afterResult`, recording one `Event`.  For `send_notification` and
`request_approval` the dispatcher itself increments `completed` on success
(src/build_agent.py:180,303).  The inner try/except of those two blocks
(lines 187-191, 310-314) is unreachable here because the modelled handlers
return normally (the SMTP send catches its own exceptions, line 774). -/
def runTaskCore (k : TaskKind) (cfg : TaskConfig) (ign : Bool) (env : StageEnv)
    (cv : CloneVar) (s : Summary) : Summary × CloneVar × List Event × BlockRes :=
  if ¬(cfg.enabled.getD false) then (s, cv, [], .cont)
  else
    match invokeTask k cfg env cv s with
    | .unbound => (s, cv, [], .raised)
    | .res s1 .raised cv1 => (s1, cv1, [⟨k, ign, .raised⟩], .raised)
    | .res s1 (.ok b) cv1 =>
        match afterResult b ign (if b ∧ dispatcherCounts k then s1.addCompleted else s1) with
        | (s3, br) => (s3, cv1, [⟨k, ign, .ok b⟩], br)

/-- runTask: `runTaskCore` applied to the stage's own task map and
`ignore_failure` flag (src/build_agent.py:61-62). -/
def runTask (k : TaskKind) (st : StageSpec) (env : StageEnv) (cv : CloneVar)
    (s : Summary) : Summary × CloneVar × List Event × BlockRes :=
  runTaskCore k (lookupTask st.tasks (kindName k)) (st.ignore_failure.getD false) env cv s

/-- runChain: the dispatcher chain over a list of task kinds: run blocks in
order, stopping at the first `return` or raise. -/
def runChain (ks : List TaskKind) (st : StageSpec) (env : StageEnv) (cv : CloneVar)
    (s : Summary) : Summary × CloneVar × List Event × BlockRes :=
  match ks with
  | [] => (s, cv, [], .cont)
  | k :: rest =>
      match runTask k st env cv s with
      | (s1, cv1, evs1, .cont) =>
          match runChain rest st env cv1 s1 with
          | (s2, cv2, evs2, br2) => (s2, cv2, evs1 ++ evs2, br2)
      | (s1, cv1, evs1, .abortJob) => (s1, cv1, evs1, .abortJob)
      | (s1, cv1, evs1, .raised) => (s1, cv1, evs1, .raised)

/-- StageRes: how one iteration of the stage loop of `process_single_item`
ends: fall through to the "Completed stage" line and continue with the next
stage, or execute `return` (ending the whole job). -/
inductive StageRes where
  | done
  | jobAbort
deriving Repr, DecidableEq

/-- runStage: one iteration of the stage loop (src/build_agent.py:59-320): run
the dispatcher chain inside the stage-boundary try; an exception reaching the
boundary adds one to `failed` (line 318) and the loop then continues with the
next stage. -/
def runStage (st : StageSpec) (env : StageEnv) (cv : CloneVar) (s : Summary) :
    Summary × CloneVar × List Event × StageRes :=
  match runChain canonicalOrder st env cv s with
  | (s1, cv1, evs, .cont) => (s1, cv1, evs, .done)
  | (s1, cv1, evs, .abortJob) => (s1, cv1, evs, .jobAbort)
  | (s1, cv1, evs, .raised) => (s1.addFailed, cv1, evs, .done)

/-- runStages: the stage loop of `process_single_item`: stages run in order,
threading `clone_dir` and the summary; a `return` ends the job early. -/
def runStages (stages : List (StageSpec × StageEnv)) (cv : CloneVar) (s : Summary) :
    Summary × List Event :=
  match stages with
  | [] => (s, [])
  | (st, env) :: rest =>
      match runStage st env cv s with
      | (s1, _cv1, evs, .jobAbort) => (s1, evs)
      | (s1, cv1, evs, .done) =>
          match runStages rest cv1 s1 with
          | (s2, evs2) => (s2, evs ++ evs2)

/-- process_single_item: one job (`item["stages"]` with `is_jobs=True`,
src/build_agent.py:57-58): its stages run with `clone_dir` initially unbound. -/
def process_single_item (job : List (StageSpec × StageEnv)) (s : Summary) :
    Summary × List Event :=
  runStages job none s

/-- runJobsSeq: the jobs of a batch folded sequentially over the shared
summary in submission order.  The source (src/build_agent.py:325-327) instead
runs one unsynchronised worker thread per job, so this fold models the batch
only under a serial schedule in which no two counter updates interleave — it
is exact for a single-job batch (which gets exactly one worker), while lost
updates between interleaved workers are modelled by the micro-operation race
model above.  Schedule-independent facts (such as `uploaded` never being
written by any worker) transfer to every schedule. -/
def runJobsSeq (jobs : List (List (StageSpec × StageEnv))) (s : Summary) :
    Summary × List Event :=
  match jobs with
  | [] => (s, [])
  | j :: rest =>
      match process_single_item j s with
      | (s1, evs1) =>
          match runJobsSeq rest s1 with
          | (s2, evs2) => (s2, evs1 ++ evs2)

/-- execute_build_stages_jobs: `execute_build_stages(jobs, is_jobs=True)`
(src/build_agent.py:24-338): the summary starts at zero and the batch's jobs
are processed. -/
def execute_build_stages_jobs (jobs : List (List (StageSpec × StageEnv))) :
    Summary × List Event :=
  runJobsSeq jobs Summary.init

/-- Event.isDefinitive: an invocation that returned a value to the dispatcher
(success or failure), as opposed to one that raised. -/
def Event.isDefinitive (e : Event) : Bool :=
  match e.res with
  | .ok _ => true
  | .raised => false

/-- definitiveCount: the number of handler invocations of a trace that
returned a definitive outcome. -/
def definitiveCount (evs : List Event) : Nat :=
  (evs.filter Event.isDefinitive).length

/-- Fatal: an invocation whose dispatcher-observed result was falsy inside a
stage whose `ignore_failure` flag is false — the source executes `return` on
such a result. -/
def Fatal (e : Event) : Prop :=
  e.ignore_failure = false ∧ e.res = .ok false

instance (e : Event) : Decidable (Fatal e) := by
  unfold Fatal; infer_instance

/-- MicroOp: the two machine-level steps CPython performs for the statement
`summary["failed"] += 1` executed by a job worker of `execute_build_stages`
(src/build_agent.py:35 creates the shared dict; lines 325-327 run one worker
thread per job; no lock is acquired anywhere in the function): first the
current counter value is read, then read+1 is stored. -/
inductive MicroOp where
  | readCounter
  | writeCounter
deriving Repr, DecidableEq

/-- ThreadSt: the remaining micro-operations of one worker's unsynchronised
increment and the value it last read. -/
structure ThreadSt where
  prog : List MicroOp
  reg : Nat
deriving Repr, DecidableEq

/-- unsyncIncThread: one worker about to execute `summary["failed"] += 1`. -/
def unsyncIncThread : ThreadSt := ⟨[.readCounter, .writeCounter], 0⟩

/-- RaceSt: the shared counter together with two worker threads, as when two
jobs of one batch each record a failure at the same moment. -/
structure RaceSt where
  shared : Nat
  t1 : ThreadSt
  t2 : ThreadSt
deriving Repr, DecidableEq

/-- stepThread: execute the worker's next micro-operation against the shared
counter. -/
def stepThread (shared : Nat) (t : ThreadSt) : Nat × ThreadSt :=
  match t.prog with
  | [] => (shared, t)
  | .readCounter :: rest => (shared, ⟨rest, shared⟩)
  | .writeCounter :: rest => (t.reg + 1, ⟨rest, t.reg⟩)

/-- schedStep: let thread 1 (when `pick1`) or thread 2 execute one
micro-operation. -/
def schedStep (st : RaceSt) (pick1 : Bool) : RaceSt :=
  if pick1 then
    match stepThread st.shared st.t1 with
    | (sh, t) => { st with shared := sh, t1 := t }
  else
    match stepThread st.shared st.t2 with
    | (sh, t) => { st with shared := sh, t2 := t }

/-- runSched: run a thread interleaving (a list of picks). -/
def runSched (sched : List Bool) (st : RaceSt) : RaceSt :=
  match sched with
  | [] => st
  | p :: rest => runSched rest (schedStep st p)

/-- initRace: shared counter 0 (the summary as created at line 35), two
workers each about to record one failure. -/
def initRace : RaceSt := ⟨0, unsyncIncThread, unsyncIncThread⟩

/-- wsum: the definitive-outcome weight of a summary, `completed + failed`. -/
def wsum (s : Summary) : Nat := s.completed + s.failed

/-- Mono: the summary only ever grows in `completed` and `failed` and never
touches `uploaded`. -/
def Mono (s s' : Summary) : Prop :=
  s.completed ≤ s'.completed ∧ s.failed ≤ s'.failed ∧ s'.uploaded = s.uploaded

/-- c1job: one job with one stage whose `sh` task is enabled and has one
failing step — the handler records the failure and the dispatcher records it
again. -/
def c1job : List (StageSpec × StageEnv) :=
  [({ tasks := [("sh", { enabled := some true, steps := some ["exit 1"] })] },
    { shStepOks := [false] })]

/-- c2job: one job whose only stage (with `ignore_failure` defaulted to false)
runs one failing `bash` step. -/
def c2job : List (StageSpec × StageEnv) :=
  [({ tasks := [("bash", { enabled := some true, steps := some ["exit 1"] })] },
    { bashStepOks := [false] })]

/-- c3stage1: a stage whose clone handler raises (git is missing and the
`apt-get install git` run with `check=True` fails). -/
def c3stage1 : StageSpec :=
  { tasks := [("setup_and_clone",
      { enabled := some true, source_url := some "https://example.com/repo.git" })] }

def c3env1 : StageEnv := { clone := { gitInstalled := false, aptGitOk := false } }

/-- c3stage2: a later stage with one succeeding `sh` step. -/
def c3stage2 : StageSpec :=
  { tasks := [("sh", { enabled := some true, steps := some ["echo hi"] })] }

def c3env2 : StageEnv := { shStepOks := [true] }

def c3job : List (StageSpec × StageEnv) := [(c3stage1, c3env1), (c3stage2, c3env2)]

/-- c4stage: a stage with `ignore_failure` true and one failing `sh` step. -/
def c4stage : StageSpec :=
  { tasks := [("sh", { enabled := some true, steps := some ["exit 1"] })],
    ignore_failure := some true }

def c4env : StageEnv := { shStepOks := [false] }

def c5base : StageSpec := {}

def c5tasks1 : List (String × TaskConfig) :=
  [("docker_hub", { enabled := some true, built_image_name := some "app:v1" }),
   ("sh", { enabled := some true, steps := some ["echo hi"] })]

def c5tasks2 : List (String × TaskConfig) :=
  [("sh", { enabled := some true, steps := some ["echo hi"] }),
   ("docker_hub", { enabled := some true, built_image_name := some "app:v1" })]

def c5env : StageEnv := { shStepOks := [true] }

/-- c6job: a job whose first stage has an enabled `sh` task with an empty
`steps` list (a skip according to the handler's own message), followed by a
second stage with a succeeding `bash` step. -/
def c6job : List (StageSpec × StageEnv) :=
  [({ tasks := [("sh", { enabled := some true, steps := some [] })] }, {}),
   ({ tasks := [("bash", { enabled := some true, steps := some ["echo hi"] })] },
    { bashStepOks := [true] })]

/-- c7stage: a stage that enables `docker_build` without any setup/clone task,
so the dispatcher reads the never-assigned local `clone_dir`. -/
def c7stage : StageSpec := { tasks := [("docker_build", { enabled := some true })] }

def c7job : List (StageSpec × StageEnv) := [(c7stage, {})]

/-- c8job: one job with one stage: an `sh` task explicitly disabled and a
`docker_build` task with no `enabled` key. -/
def c8job : List (StageSpec × StageEnv) :=
  [({ tasks := [("sh", { enabled := some false, steps := some ["echo hi"] }),
                ("docker_build", {})] }, {})]

@[simp] lemma Summary.addCompleted_completed (s : Summary) :
    s.addCompleted.completed = s.completed + 1 := rfl

@[simp] lemma Summary.addCompleted_failed (s : Summary) :
    s.addCompleted.failed = s.failed := rfl

@[simp] lemma Summary.addCompleted_uploaded (s : Summary) :
    s.addCompleted.uploaded = s.uploaded := rfl

@[simp] lemma Summary.addFailed_completed (s : Summary) :
    s.addFailed.completed = s.completed := rfl

@[simp] lemma Summary.addFailed_failed (s : Summary) :
    s.addFailed.failed = s.failed + 1 := rfl

@[simp] lemma Summary.addFailed_uploaded (s : Summary) :
    s.addFailed.uploaded = s.uploaded := rfl

@[simp] lemma wsum_addCompleted (s : Summary) : wsum s.addCompleted = wsum s + 1 := by
  simp [wsum, Summary.addCompleted]; omega

@[simp] lemma wsum_addFailed (s : Summary) : wsum s.addFailed = wsum s + 1 := by
  simp [wsum, Summary.addFailed]; omega

lemma Mono.refl (s : Summary) : Mono s s := ⟨le_refl _, le_refl _, rfl⟩

lemma Mono.trans {s t u : Summary} (h1 : Mono s t) (h2 : Mono t u) : Mono s u :=
  ⟨h1.1.trans h2.1, h1.2.1.trans h2.2.1, h2.2.2.trans h1.2.2⟩

lemma Mono.addCompleted (s : Summary) : Mono s s.addCompleted := by
  refine ⟨?_, ?_, ?_⟩ <;> simp

lemma Mono.addFailed (s : Summary) : Mono s s.addFailed := by
  refine ⟨?_, ?_, ?_⟩ <;> simp

lemma Mono.wsum_le {s s' : Summary} (h : Mono s s') : wsum s ≤ wsum s' := by
  obtain ⟨h1, h2, _⟩ := h
  unfold wsum
  omega

lemma checkoutBranches_spec (bs : List String) :
    ∀ oks s cd s' r, checkoutBranches bs oks s cd = (s', r) → Mono s s' := by
  induction bs with
  | nil =>
      intro oks s cd s' r h
      simp only [checkoutBranches] at h
      cases h
      exact Mono.refl s
  | cons b bs ih =>
      intro oks s cd s' r h
      cases oks with
      | nil =>
          simp only [checkoutBranches] at h
          cases h
          exact Mono.addFailed s
      | cons ok oks' =>
          simp only [checkoutBranches] at h
          split at h
          · exact (Mono.addCompleted s).trans (ih oks' s.addCompleted cd s' r h)
          · cases h
            exact Mono.addFailed s

lemma setup_and_clone_repository_spec (cfg : TaskConfig) (env : CloneEnv) (s s' : Summary)
    (r : PyRes (Option String)) (h : setup_and_clone_repository cfg env s = (s', r)) :
    Mono s s' ∧ ∀ d, r = .ok (some d) → s.completed + 1 ≤ s'.completed := by
  simp only [setup_and_clone_repository] at h
  split at h
  · cases h; exact ⟨Mono.addFailed s, by simp⟩
  · split at h
    · cases h; exact ⟨Mono.refl s, by simp⟩
    · split at h
      · cases h; exact ⟨Mono.refl s, by simp⟩
      · split at h
        · cases h; exact ⟨Mono.addFailed s, by simp⟩
        · split at h
          · cases h; exact ⟨Mono.refl s, by simp⟩
          · split at h
            · split at h
              · cases h; exact ⟨Mono.addCompleted s, by intro d hd; simp⟩
              · split at h
                · cases h; exact ⟨Mono.addCompleted s, by simp⟩
                · have hc := checkoutBranches_spec _ _ _ _ _ _ h
                  have h1 := hc.1
                  simp only [Summary.addCompleted_completed] at h1
                  exact ⟨(Mono.addCompleted s).trans hc, fun d _ => h1⟩
            · cases h; exact ⟨Mono.addFailed s, by simp⟩

lemma docker_build_spec (cfg : TaskConfig) (cd : String) (bOk : Bool) (s s' : Summary)
    (r : PyRes Bool) (h : docker_build cfg cd bOk s = (s', r)) :
    Mono s s' ∧ (r = .ok true → s.completed + 1 ≤ s'.completed) := by
  unfold docker_build at h
  split at h
  · cases h; exact ⟨Mono.refl s, by simp⟩
  · split at h
    · cases h; exact ⟨Mono.addCompleted s, by simp⟩
    · cases h; exact ⟨Mono.addFailed s, by simp⟩

lemma push_to_docker_hub_spec (cfg : TaskConfig) (env : HubEnv) (s s' : Summary)
    (r : PyRes Bool) (h : push_to_docker_hub cfg env s = (s', r)) :
    Mono s s' ∧ (r = .ok true → s.completed + 1 ≤ s'.completed) := by
  unfold push_to_docker_hub at h
  split at h
  · cases h; exact ⟨Mono.addFailed s, by simp⟩
  · split at h
    · cases h; exact ⟨Mono.refl s, by simp⟩
    · split at h
      · cases h; exact ⟨Mono.addFailed s, by simp⟩
      · split at h
        · cases h; exact ⟨Mono.addFailed s, by simp⟩
        · split at h
          · cases h; exact ⟨Mono.addCompleted s, by simp⟩
          · cases h; exact ⟨Mono.addFailed s, by simp⟩

lemma runStepsLoop_spec (steps : List String) :
    ∀ oks s s' r, runStepsLoop steps oks s = (s', r) →
      Mono s s' ∧ (r = .ok true → steps = [] ∨ s.completed + 1 ≤ s'.completed) := by
  induction steps with
  | nil =>
      intro oks s s' r h
      simp only [runStepsLoop] at h
      cases h
      exact ⟨Mono.refl s, fun _ => Or.inl rfl⟩
  | cons c cs ih =>
      intro oks s s' r h
      cases oks with
      | nil =>
          simp only [runStepsLoop] at h
          cases h
          exact ⟨Mono.addFailed s, by simp⟩
      | cons ok oks' =>
          simp only [runStepsLoop] at h
          split at h
          · have hl := ih oks' s.addCompleted s' r h
            have h1 := hl.1.1
            simp only [Summary.addCompleted_completed] at h1
            exact ⟨(Mono.addCompleted s).trans hl.1, fun _ => Or.inr h1⟩
          · cases h
            exact ⟨Mono.addFailed s, by simp⟩

lemma run_shell_steps_spec (cfg : TaskConfig) (oks : List Bool) (s s' : Summary)
    (r : PyRes Bool) (h : run_shell_steps cfg oks s = (s', r)) :
    Mono s s' ∧ (r = .ok true → s.completed + 1 ≤ s'.completed) := by
  simp only [run_shell_steps] at h
  split at h
  · cases h; exact ⟨Mono.refl s, by simp⟩
  · split at h
    · cases h; exact ⟨Mono.refl s, by simp⟩
    · next hne =>
        have hl := runStepsLoop_spec _ _ _ _ _ h
        refine ⟨hl.1, fun hr => ?_⟩
        rcases hl.2 hr with he | hb
        · exact absurd (by simp [he] : (cfg.steps.getD []).isEmpty = true) hne
        · exact hb

lemma run_bash_steps_spec (cfg : TaskConfig) (oks : List Bool) (s s' : Summary)
    (r : PyRes Bool) (h : run_bash_steps cfg oks s = (s', r)) :
    Mono s s' ∧ (r = .ok true → s.completed + 1 ≤ s'.completed) := by
  simp only [run_bash_steps] at h
  split at h
  · cases h; exact ⟨Mono.refl s, by simp⟩
  · split at h
    · cases h; exact ⟨Mono.refl s, by simp⟩
    · next hne =>
        have hl := runStepsLoop_spec _ _ _ _ _ h
        refine ⟨hl.1, fun hr => ?_⟩
        rcases hl.2 hr with he | hb
        · exact absurd (by simp [he] : (cfg.steps.getD []).isEmpty = true) hne
        · exact hb

lemma run_maven_build_spec (cfg : TaskConfig) (cd : String) (env : MavenEnv) (s s' : Summary)
    (r : PyRes Bool) (h : run_maven_build cfg cd env s = (s', r)) :
    Mono s s' ∧ (r = .ok true → s.completed + 1 ≤ s'.completed) := by
  unfold run_maven_build at h
  split at h
  · cases h; exact ⟨Mono.refl s, by simp⟩
  · split at h
    · cases h; exact ⟨Mono.addFailed s, by simp⟩
    · split at h
      · cases h; exact ⟨Mono.refl s, by simp⟩
      · cases h; exact ⟨Mono.addCompleted s, by simp⟩

lemma run_gradle_build_spec (cfg : TaskConfig) (cd : String) (bOk : Bool) (s s' : Summary)
    (r : PyRes Bool) (h : run_gradle_build cfg cd bOk s = (s', r)) :
    Mono s s' ∧ (r = .ok true → s.completed + 1 ≤ s'.completed) := by
  unfold run_gradle_build at h
  split at h
  · cases h; exact ⟨Mono.refl s, by simp⟩
  · split at h
    · cases h; exact ⟨Mono.addCompleted s, by simp⟩
    · cases h; exact ⟨Mono.addFailed s, by simp⟩

lemma run_trivy_scan_spec (cfg : TaskConfig) (bOk : Bool) (s s' : Summary)
    (r : PyRes Bool) (h : run_trivy_scan cfg bOk s = (s', r)) :
    Mono s s' ∧ (r = .ok true → s.completed + 1 ≤ s'.completed) := by
  unfold run_trivy_scan at h
  split at h
  · cases h; exact ⟨Mono.addCompleted s, by simp⟩
  · cases h; exact ⟨Mono.addFailed s, by simp⟩

lemma run_yarn_build_spec (cfg : TaskConfig) (cd : String) (iOk bOk : Bool) (s s' : Summary)
    (r : PyRes Bool) (h : run_yarn_build cfg cd iOk bOk s = (s', r)) :
    Mono s s' ∧ (r = .ok true → s.completed + 1 ≤ s'.completed) := by
  unfold run_yarn_build at h
  split at h
  · cases h; exact ⟨Mono.refl s, by simp⟩
  · split at h
    · cases h; exact ⟨Mono.addFailed s, by simp⟩
    · split at h
      · cases h; exact ⟨Mono.addCompleted s, by simp⟩
      · cases h; exact ⟨Mono.addFailed s, by simp⟩

lemma run_go_build_spec (cfg : TaskConfig) (cd : String) (bOk : Bool) (s s' : Summary)
    (r : PyRes Bool) (h : run_go_build cfg cd bOk s = (s', r)) :
    Mono s s' ∧ (r = .ok true → s.completed + 1 ≤ s'.completed) := by
  unfold run_go_build at h
  split at h
  · cases h; exact ⟨Mono.refl s, by simp⟩
  · split at h
    · cases h; exact ⟨Mono.addCompleted s, by simp⟩
    · cases h; exact ⟨Mono.addFailed s, by simp⟩

lemma run_npm_build_spec (cfg : TaskConfig) (cd : String) (iOk bOk : Bool) (s s' : Summary)
    (r : PyRes Bool) (h : run_npm_build cfg cd iOk bOk s = (s', r)) :
    Mono s s' ∧ (r = .ok true → s.completed + 1 ≤ s'.completed) := by
  unfold run_npm_build at h
  split at h
  · cases h; exact ⟨Mono.refl s, by simp⟩
  · split at h
    · cases h; exact ⟨Mono.addFailed s, by simp⟩
    · split at h
      · cases h; exact ⟨Mono.addCompleted s, by simp⟩
      · cases h; exact ⟨Mono.addFailed s, by simp⟩

lemma run_sonar_analysis_spec (cfg : TaskConfig) (cd : String) (bOk : Bool) (s s' : Summary)
    (r : PyRes Bool) (h : run_sonar_analysis cfg cd bOk s = (s', r)) :
    Mono s s' ∧ (r = .ok true → s.completed + 1 ≤ s'.completed) := by
  unfold run_sonar_analysis at h
  split at h
  · cases h; exact ⟨Mono.refl s, by simp⟩
  · split at h
    · cases h; exact ⟨Mono.addFailed s, by simp⟩
    · split at h
      · cases h; exact ⟨Mono.addCompleted s, by simp⟩
      · cases h; exact ⟨Mono.addFailed s, by simp⟩

lemma invokeTask_spec (k : TaskKind) (cfg : TaskConfig) (env : StageEnv) (cv : CloneVar)
    (s s1 : Summary) (r : PyRes Bool) (cv1 : CloneVar)
    (h : invokeTask k cfg env cv s = .res s1 r cv1) :
    Mono s s1 ∧ (r = .ok true → dispatcherCounts k = true ∨ s.completed + 1 ≤ s1.completed) := by
  cases k with
  | setup_and_clone =>
      simp only [invokeTask] at h
      split at h
      next sa heq =>
        cases h
        have hspec := setup_and_clone_repository_spec _ _ _ _ _ heq
        exact ⟨hspec.1, by simp⟩
      next sa v heq =>
        cases h
        have hspec := setup_and_clone_repository_spec _ _ _ _ _ heq
        refine ⟨hspec.1, fun hr => Or.inr ?_⟩
        injection hr with hv
        cases v with
        | none => simp [optTruthy] at hv
        | some d => exact hspec.2 d rfl
  | docker_build =>
      cases cv with
      | none => exact absurd h (by simp [invokeTask])
      | some cd =>
          simp only [invokeTask] at h
          cases h
          have hspec := docker_build_spec cfg (pyStrOfOpt cd) env.dockerBuildOk s _ _ rfl
          exact ⟨hspec.1, fun hr => Or.inr (hspec.2 hr)⟩
  | docker_hub =>
      simp only [invokeTask] at h
      cases h
      have hspec := push_to_docker_hub_spec cfg env.hub s _ _ rfl
      exact ⟨hspec.1, fun hr => Or.inr (hspec.2 hr)⟩
  | sh =>
      simp only [invokeTask] at h
      cases h
      have hspec := run_shell_steps_spec cfg env.shStepOks s _ _ rfl
      exact ⟨hspec.1, fun hr => Or.inr (hspec.2 hr)⟩
  | bash =>
      simp only [invokeTask] at h
      cases h
      have hspec := run_bash_steps_spec cfg env.bashStepOks s _ _ rfl
      exact ⟨hspec.1, fun hr => Or.inr (hspec.2 hr)⟩
  | maven =>
      cases cv with
      | none => exact absurd h (by simp [invokeTask])
      | some cd =>
          simp only [invokeTask] at h
          cases h
          have hspec := run_maven_build_spec cfg (pyStrOfOpt cd) env.maven s _ _ rfl
          exact ⟨hspec.1, fun hr => Or.inr (hspec.2 hr)⟩
  | send_notification =>
      simp only [invokeTask] at h
      cases h
      exact ⟨Mono.refl s, fun _ => Or.inl rfl⟩
  | gradle =>
      cases cv with
      | none => exact absurd h (by simp [invokeTask])
      | some cd =>
          simp only [invokeTask] at h
          cases h
          have hspec := run_gradle_build_spec cfg (pyStrOfOpt cd) env.gradleBuildOk s _ _ rfl
          exact ⟨hspec.1, fun hr => Or.inr (hspec.2 hr)⟩
  | trivy =>
      simp only [invokeTask] at h
      cases h
      have hspec := run_trivy_scan_spec cfg env.trivyOk s _ _ rfl
      exact ⟨hspec.1, fun hr => Or.inr (hspec.2 hr)⟩
  | yarn =>
      cases cv with
      | none => exact absurd h (by simp [invokeTask])
      | some cd =>
          simp only [invokeTask] at h
          cases h
          have hspec := run_yarn_build_spec cfg (pyStrOfOpt cd) env.yarnInstallOk
            env.yarnBuildOk s _ _ rfl
          exact ⟨hspec.1, fun hr => Or.inr (hspec.2 hr)⟩
  | go_build =>
      cases cv with
      | none => exact absurd h (by simp [invokeTask])
      | some cd =>
          simp only [invokeTask] at h
          cases h
          have hspec := run_go_build_spec cfg (pyStrOfOpt cd) env.goBuildOk s _ _ rfl
          exact ⟨hspec.1, fun hr => Or.inr (hspec.2 hr)⟩
  | npm =>
      cases cv with
      | none => exact absurd h (by simp [invokeTask])
      | some cd =>
          simp only [invokeTask] at h
          cases h
          have hspec := run_npm_build_spec cfg (pyStrOfOpt cd) env.npmInstallOk
            env.npmBuildOk s _ _ rfl
          exact ⟨hspec.1, fun hr => Or.inr (hspec.2 hr)⟩
  | sonarqube_analysis =>
      cases cv with
      | none => exact absurd h (by simp [invokeTask])
      | some cd =>
          simp only [invokeTask] at h
          cases h
          have hspec := run_sonar_analysis_spec cfg (pyStrOfOpt cd) env.sonarOk s _ _ rfl
          exact ⟨hspec.1, fun hr => Or.inr (hspec.2 hr)⟩
  | request_approval =>
      simp only [invokeTask] at h
      cases h
      exact ⟨Mono.refl s, fun _ => Or.inl rfl⟩

lemma afterResult_eq (b ign : Bool) (s : Summary) :
    afterResult b ign s
      = if b then (s, .cont) else (s.addFailed, if ign then .cont else .abortJob) := by
  unfold afterResult
  cases b <;> cases ign <;> rfl

@[simp] lemma definitiveCount_nil : definitiveCount [] = 0 := rfl

@[simp] lemma definitiveCount_append (l1 l2 : List Event) :
    definitiveCount (l1 ++ l2) = definitiveCount l1 + definitiveCount l2 := by
  simp [definitiveCount, List.filter_append]

@[simp] lemma definitiveCount_ok (k : TaskKind) (ign : Bool) (b : Bool) :
    definitiveCount [⟨k, ign, .ok b⟩] = 1 := rfl

@[simp] lemma definitiveCount_raised (k : TaskKind) (ign : Bool) :
    definitiveCount [⟨k, ign, .raised⟩] = 0 := rfl

lemma afterResult_true (ign : Bool) (s : Summary) : afterResult true ign s = (s, .cont) := rfl

lemma afterResult_false_true (s : Summary) : afterResult false true s = (s.addFailed, .cont) := rfl

lemma afterResult_false_false (s : Summary) :
    afterResult false false s = (s.addFailed, .abortJob) := rfl

lemma runTaskCore_cases (k : TaskKind) (cfg : TaskConfig) (ign : Bool) (env : StageEnv)
    (cv : CloneVar) (s s' : Summary) (cv' : CloneVar) (evs : List Event) (br : BlockRes)
    (h : runTaskCore k cfg ign env cv s = (s', cv', evs, br)) :
    Mono s s' ∧ wsum s + definitiveCount evs ≤ wsum s' ∧
    ((evs = [] ∧ s' = s ∧ cv' = cv ∧ (br = .cont ∨ br = .raised)) ∨
     (∃ r, evs = [⟨k, ign, r⟩] ∧ (br = .abortJob ↔ r = .ok false ∧ ign = false)
        ∧ (br = .raised ↔ r = .raised)
        ∧ (r = .ok false → s.failed < s'.failed))) := by
  unfold runTaskCore at h
  split at h
  · cases h
    exact ⟨Mono.refl s, by simp, Or.inl ⟨rfl, rfl, rfl, Or.inl rfl⟩⟩
  · split at h
    · cases h
      exact ⟨Mono.refl s, by simp, Or.inl ⟨rfl, rfl, rfl, Or.inr rfl⟩⟩
    · next s1 cv1 heq =>
        cases h
        have hspec := invokeTask_spec _ _ _ _ _ _ _ _ heq
        refine ⟨hspec.1, by simpa using hspec.1.wsum_le,
          Or.inr ⟨.raised, rfl, by simp, by simp, by simp⟩⟩
    · next s1 b cv1 heq =>
        have hspec := invokeTask_spec _ _ _ _ _ _ _ _ heq
        have hmono := hspec.1
        split at h
        next s3 br2 ha =>
        cases h
        cases b with
        | true =>
            rw [afterResult_true] at ha
            by_cases hd : dispatcherCounts k = true
            · rw [if_pos ⟨rfl, hd⟩] at ha
              cases ha
              refine ⟨hmono.trans (Mono.addCompleted s1), ?_,
                Or.inr ⟨.ok true, rfl, by simp, by simp, by simp⟩⟩
              have := hmono.wsum_le
              simp only [definitiveCount_ok, wsum_addCompleted]
              omega
            · rw [if_neg (fun hc => hd hc.2)] at ha
              cases ha
              rcases hspec.2 rfl with hdc | hbump
              · exact absurd hdc hd
              · refine ⟨hmono, ?_, Or.inr ⟨.ok true, rfl, by simp, by simp, by simp⟩⟩
                have hf := hmono.2.1
                simp only [definitiveCount_ok, wsum]
                omega
        | false =>
            have hX : (if false = true ∧ dispatcherCounts k = true
                then s1.addCompleted else s1) = s1 :=
              if_neg (fun hc => by cases hc.1)
            rw [hX] at ha
            cases ign with
            | true =>
                rw [afterResult_false_true] at ha
                cases ha
                refine ⟨hmono.trans (Mono.addFailed s1), ?_,
                  Or.inr ⟨.ok false, rfl, by simp, by simp, ?_⟩⟩
                · have := hmono.wsum_le
                  simp only [definitiveCount_ok, wsum_addFailed]
                  omega
                · intro _
                  have hf := hmono.2.1
                  simp only [Summary.addFailed_failed]
                  omega
            | false =>
                rw [afterResult_false_false] at ha
                cases ha
                refine ⟨hmono.trans (Mono.addFailed s1), ?_,
                  Or.inr ⟨.ok false, rfl, by simp, by simp, ?_⟩⟩
                · have := hmono.wsum_le
                  simp only [definitiveCount_ok, wsum_addFailed]
                  omega
                · intro _
                  have hf := hmono.2.1
                  simp only [Summary.addFailed_failed]
                  omega

lemma runTask_cases (k : TaskKind) (st : StageSpec) (env : StageEnv)
    (cv : CloneVar) (s s' : Summary) (cv' : CloneVar) (evs : List Event) (br : BlockRes)
    (h : runTask k st env cv s = (s', cv', evs, br)) :
    Mono s s' ∧ wsum s + definitiveCount evs ≤ wsum s' ∧
    ((evs = [] ∧ s' = s ∧ cv' = cv ∧ (br = .cont ∨ br = .raised)) ∨
     (∃ r, evs = [⟨k, st.ignore_failure.getD false, r⟩]
        ∧ (br = .abortJob ↔ r = .ok false ∧ st.ignore_failure.getD false = false)
        ∧ (br = .raised ↔ r = .raised)
        ∧ (r = .ok false → s.failed < s'.failed))) := by
  unfold runTask at h
  exact runTaskCore_cases _ _ _ _ _ _ _ _ _ _ h

lemma runChain_spec (ks : List TaskKind) (st : StageSpec) (env : StageEnv) :
    ∀ cv s s' cv' evs br, runChain ks st env cv s = (s', cv', evs, br) →
      Mono s s' ∧ wsum s + definitiveCount evs ≤ wsum s' := by
  induction ks with
  | nil =>
      intro cv s s' cv' evs br h
      simp only [runChain] at h
      cases h
      exact ⟨Mono.refl s, by simp⟩
  | cons k rest ih =>
      intro cv s s' cv' evs br h
      simp only [runChain] at h
      split at h
      next s1 cv1 evs1 heq =>
        cases h
        have h1 := runTask_cases _ _ _ _ _ _ _ _ _ heq
        have h2 := ih cv1 s1 _ _ _ _ rfl
        refine ⟨h1.1.trans h2.1, ?_⟩
        have ha := h1.2.1
        have hb := h2.2
        simp only [definitiveCount_append]
        omega
      next s1 cv1 evs1 heq =>
        cases h
        have h1 := runTask_cases _ _ _ _ _ _ _ _ _ heq
        exact ⟨h1.1, h1.2.1⟩
      next s1 cv1 evs1 heq =>
        cases h
        have h1 := runTask_cases _ _ _ _ _ _ _ _ _ heq
        exact ⟨h1.1, h1.2.1⟩

lemma runChain_fatal (ks : List TaskKind) (st : StageSpec) (env : StageEnv) :
    ∀ cv s s' cv' evs br, runChain ks st env cv s = (s', cv', evs, br) →
      (br ≠ .abortJob → ∀ e ∈ evs, ¬Fatal e) ∧
      (br = .abortJob → ∃ t e, evs = t ++ [e] ∧ (∀ x ∈ t, ¬Fatal x)) := by
  induction ks with
  | nil =>
      intro cv s s' cv' evs br h
      simp only [runChain] at h
      cases h
      exact ⟨fun _ e he => absurd he (by simp), fun hab => by cases hab⟩
  | cons k rest ih =>
      intro cv s s' cv' evs br h
      simp only [runChain] at h
      split at h
      next s1 cv1 evs1 heq =>
        cases h
        have h1 := runTask_cases _ _ _ _ _ _ _ _ _ heq
        have h2 := ih cv1 s1 _ _ _ _ rfl
        have hhead : ∀ e ∈ evs1, ¬Fatal e := by
          rcases h1.2.2 with ⟨he, _, _, _⟩ | ⟨r, he, hab, _, _⟩
          · intro e hmem
            rw [he] at hmem
            exact absurd hmem (by simp)
          · intro e hmem
            rw [he] at hmem
            simp only [List.mem_singleton] at hmem
            subst hmem
            intro hfat
            obtain ⟨hign, hres⟩ := hfat
            exact absurd (hab.mpr ⟨hres, hign⟩) (by simp)
        constructor
        · intro hne e hmem
          rcases List.mem_append.mp hmem with hm | hm
          · exact hhead e hm
          · exact h2.1 hne e hm
        · intro hab
          rcases h2.2 hab with ⟨t, e, hev, ht⟩
          refine ⟨evs1 ++ t, e, by rw [hev, List.append_assoc], ?_⟩
          intro x hx
          rcases List.mem_append.mp hx with hm | hm
          · exact hhead x hm
          · exact ht x hm
      next s1 cv1 evs1 heq =>
        cases h
        have h1 := runTask_cases _ _ _ _ _ _ _ _ _ heq
        constructor
        · intro hne
          exact absurd rfl hne
        · intro _
          rcases h1.2.2 with ⟨_, _, _, hbr | hbr⟩ | ⟨r, he, hab, _, _⟩
          · cases hbr
          · cases hbr
          · refine ⟨[], _, by rw [he]; rfl, by intro x hx; exact absurd hx (by simp)⟩
      next s1 cv1 evs1 heq =>
        cases h
        have h1 := runTask_cases _ _ _ _ _ _ _ _ _ heq
        constructor
        · intro _ e hmem
          rcases h1.2.2 with ⟨he, _, _, _⟩ | ⟨r, he, hab, hrs, _⟩
          · rw [he] at hmem
            exact absurd hmem (by simp)
          · rw [he] at hmem
            simp only [List.mem_singleton] at hmem
            subst hmem
            intro hfat
            obtain ⟨hign, hres⟩ := hfat
            have : r = .raised := hrs.mp rfl
            rw [this] at hres
            cases hres
        · intro hab
          cases hab

lemma runChain_no_abort (ks : List TaskKind) (st : StageSpec) (env : StageEnv)
    (hign : st.ignore_failure.getD false = true) :
    ∀ cv s s' cv' evs br, runChain ks st env cv s = (s', cv', evs, br) → br ≠ .abortJob := by
  induction ks with
  | nil =>
      intro cv s s' cv' evs br h
      simp only [runChain] at h
      cases h
      simp
  | cons k rest ih =>
      intro cv s s' cv' evs br h
      simp only [runChain] at h
      split at h
      next s1 cv1 evs1 heq =>
        cases h
        exact ih cv1 s1 _ _ _ _ rfl
      next s1 cv1 evs1 heq =>
        cases h
        have h1 := runTask_cases _ _ _ _ _ _ _ _ _ heq
        rcases h1.2.2 with ⟨_, _, _, hbr | hbr⟩ | ⟨r, _, hab, _, _⟩
        · cases hbr
        · cases hbr
        · exfalso
          have := hab.mp rfl
          rw [hign] at this
          cases this.2
      next s1 cv1 evs1 heq =>
        cases h
        simp

lemma runStage_spec (st : StageSpec) (env : StageEnv) (cv : CloneVar) (s s' : Summary)
    (cv' : CloneVar) (evs : List Event) (sr : StageRes)
    (h : runStage st env cv s = (s', cv', evs, sr)) :
    Mono s s' ∧ wsum s + definitiveCount evs ≤ wsum s' := by
  unfold runStage at h
  split at h
  next s1 cv1 evs1 heq =>
    cases h
    exact runChain_spec _ _ _ _ _ _ _ _ _ heq
  next s1 cv1 evs1 heq =>
    cases h
    exact runChain_spec _ _ _ _ _ _ _ _ _ heq
  next s1 cv1 evs1 heq =>
    cases h
    have h1 := runChain_spec _ _ _ _ _ _ _ _ _ heq
    refine ⟨h1.1.trans (Mono.addFailed s1), ?_⟩
    have := h1.2
    simp only [wsum_addFailed]
    omega

lemma runStage_fatal (st : StageSpec) (env : StageEnv) (cv : CloneVar) (s s' : Summary)
    (cv' : CloneVar) (evs : List Event) (sr : StageRes)
    (h : runStage st env cv s = (s', cv', evs, sr)) :
    (sr = .done → ∀ e ∈ evs, ¬Fatal e) ∧
    (sr = .jobAbort → ∃ t e, evs = t ++ [e] ∧ ∀ x ∈ t, ¬Fatal x) := by
  unfold runStage at h
  split at h
  next s1 cv1 evs1 heq =>
    cases h
    have h1 := runChain_fatal _ _ _ _ _ _ _ _ _ heq
    exact ⟨fun _ => h1.1 (by simp), fun hab => by cases hab⟩
  next s1 cv1 evs1 heq =>
    cases h
    have h1 := runChain_fatal _ _ _ _ _ _ _ _ _ heq
    exact ⟨fun hd => absurd hd (by simp), fun _ => h1.2 rfl⟩
  next s1 cv1 evs1 heq =>
    cases h
    have h1 := runChain_fatal _ _ _ _ _ _ _ _ _ heq
    exact ⟨fun _ => h1.1 (by simp), fun hab => by cases hab⟩

lemma runStage_no_abort (st : StageSpec) (env : StageEnv) (cv : CloneVar) (s : Summary)
    (hign : st.ignore_failure.getD false = true) (s' : Summary) (cv' : CloneVar)
    (evs : List Event) (sr : StageRes) (h : runStage st env cv s = (s', cv', evs, sr)) :
    sr ≠ .jobAbort := by
  unfold runStage at h
  split at h
  next heq =>
    cases h
    simp
  next heq =>
    cases h
    exact absurd rfl (runChain_no_abort canonicalOrder st env hign _ _ _ _ _ _ heq)
  next heq =>
    cases h
    simp

lemma runStages_spec (stages : List (StageSpec × StageEnv)) :
    ∀ cv s s' evs, runStages stages cv s = (s', evs) →
      Mono s s' ∧ wsum s + definitiveCount evs ≤ wsum s' := by
  induction stages with
  | nil =>
      intro cv s s' evs h
      simp only [runStages] at h
      cases h
      exact ⟨Mono.refl s, by simp⟩
  | cons p rest ih =>
      intro cv s s' evs h
      obtain ⟨st, env⟩ := p
      simp only [runStages] at h
      split at h
      next s1 cv1 evsS heq =>
        cases h
        exact runStage_spec _ _ _ _ _ _ _ _ heq
      next s1 cv1 evsS heq =>
        cases h
        have h1 := runStage_spec _ _ _ _ _ _ _ _ heq
        have h2 := ih cv1 s1 _ _ rfl
        refine ⟨h1.1.trans h2.1, ?_⟩
        have ha := h1.2
        have hb := h2.2
        simp only [definitiveCount_append]
        omega

lemma eventSplitAcross {l1 l2 t1 t2 : List Event} {e : Event}
    (hl : ∀ x ∈ l1, ¬Fatal x) (hf : Fatal e) (heq : l1 ++ l2 = t1 ++ e :: t2) :
    ∃ u, t1 = l1 ++ u ∧ l2 = u ++ e :: t2 := by
  rcases List.append_eq_append_iff.mp heq with ⟨a, ha1, ha2⟩ | ⟨c, hc1, hc2⟩
  · exact ⟨a, ha1, ha2⟩
  · cases c with
    | nil =>
        refine ⟨[], ?_, ?_⟩
        · rw [hc1, List.append_nil, List.append_nil]
        · rw [List.nil_append]
          rw [List.nil_append] at hc2
          exact hc2.symm
    | cons x c' =>
        exfalso
        injection hc2 with h1 h2
        refine hl x ?_ (h1 ▸ hf)
        rw [hc1]
        exact List.mem_append.mpr (Or.inr (List.mem_cons_self x c'))

lemma runStages_fatal (stages : List (StageSpec × StageEnv)) :
    ∀ cv s s' evs, runStages stages cv s = (s', evs) →
      ∀ t1 e t2, evs = t1 ++ e :: t2 → Fatal e → t2 = [] := by
  induction stages with
  | nil =>
      intro cv s s' evs h t1 e t2 hdec hf
      simp only [runStages] at h
      cases h
      simp at hdec
  | cons p rest ih =>
      intro cv s s' evs h t1 e t2 hdec hf
      obtain ⟨st, env⟩ := p
      simp only [runStages] at h
      split at h
      next s1 cv1 evsS heq =>
        cases h
        have hst := runStage_fatal _ _ _ _ _ _ _ _ heq
        rcases hst.2 rfl with ⟨t, f, hev, ht⟩
        rw [hev] at hdec
        rcases eventSplitAcross ht hf hdec with ⟨u, hu1, hu2⟩
        cases u with
        | nil =>
            rw [List.nil_append] at hu2
            injection hu2 with h1 h2
            exact h2.symm
        | cons y u' =>
            exfalso
            injection hu2 with h1 h2
            simp at h2
      next s1 cv1 evsS heq =>
        cases h
        have hst := runStage_fatal _ _ _ _ _ _ _ _ heq
        have hns : ∀ x ∈ evsS, ¬Fatal x := hst.1 rfl
        rcases eventSplitAcross hns hf hdec with ⟨u, hu1, hu2⟩
        exact ih cv1 s1 _ _ rfl u e t2 hu2 hf

lemma lookupTask_perm (t1 t2 : List (String × TaskConfig)) (hp : t1.Perm t2) :
    (t1.map Prod.fst).Nodup → ∀ key, lookupTask t1 key = lookupTask t2 key := by
  induction hp with
  | nil => intro _ key; rfl
  | cons x hp ih =>
      intro hnd key
      rw [List.map_cons, List.nodup_cons] at hnd
      by_cases hx : (x.1 == key) = true
      · simp only [lookupTask, List.find?, hx]
      · rw [Bool.not_eq_true] at hx
        simp only [lookupTask, List.find?, hx]
        have := ih hnd.2 key
        unfold lookupTask at this
        exact this
  | swap x y l =>
      intro hnd key
      rw [List.map_cons, List.map_cons, List.nodup_cons] at hnd
      have hxy : y.1 ≠ x.1 := by
        intro he
        exact hnd.1 (by rw [he]; exact List.mem_cons_self _ _)
      by_cases hy : (y.1 == key) = true
      · have hx : (x.1 == key) = false := by
          simp only [beq_iff_eq] at hy
          rw [beq_eq_false_iff_ne]
          intro hxe
          exact hxy (by rw [hy, hxe])
        simp only [lookupTask, List.find?, hy, hx]
      · rw [Bool.not_eq_true] at hy
        by_cases hx : (x.1 == key) = true
        · simp only [lookupTask, List.find?, hy, hx]
        · rw [Bool.not_eq_true] at hx
          simp only [lookupTask, List.find?, hy, hx]
  | trans hp1 hp2 ih1 ih2 =>
      intro hnd key
      rw [ih1 hnd key]
      exact ih2 ((hp1.map Prod.fst).nodup_iff.mp hnd) key

lemma runTask_congr (k : TaskKind) (st1 st2 : StageSpec)
    (hl : ∀ key, lookupTask st1.tasks key = lookupTask st2.tasks key)
    (hi : st1.ignore_failure = st2.ignore_failure) (env : StageEnv) (cv : CloneVar)
    (s : Summary) : runTask k st1 env cv s = runTask k st2 env cv s := by
  unfold runTask
  rw [hl, hi]

lemma runChain_congr (ks : List TaskKind) (st1 st2 : StageSpec)
    (hl : ∀ key, lookupTask st1.tasks key = lookupTask st2.tasks key)
    (hi : st1.ignore_failure = st2.ignore_failure) (env : StageEnv) :
    ∀ cv s, runChain ks st1 env cv s = runChain ks st2 env cv s := by
  induction ks with
  | nil => intro cv s; rfl
  | cons k rest ih =>
      intro cv s
      have ht := runTask_congr k st1 st2 hl hi env cv s
      simp only [runChain, ht, ih]

lemma runStage_congr (st1 st2 : StageSpec)
    (hl : ∀ key, lookupTask st1.tasks key = lookupTask st2.tasks key)
    (hi : st1.ignore_failure = st2.ignore_failure) (env : StageEnv) (cv : CloneVar)
    (s : Summary) : runStage st1 env cv s = runStage st2 env cv s := by
  unfold runStage
  rw [runChain_congr canonicalOrder st1 st2 hl hi env cv s]

lemma runChain_kinds_sublist (ks : List TaskKind) (st : StageSpec) (env : StageEnv) :
    ∀ cv s, (((runChain ks st env cv s).2.2.1).map Event.kind).Sublist ks := by
  induction ks with
  | nil => intro cv s; simp [runChain]
  | cons k rest ih =>
      intro cv s
      rcases hr : runTask k st env cv s with ⟨s1, cv1, evs1, br⟩
      have hsh := (runTask_cases _ _ _ _ _ _ _ _ _ hr).2.2
      cases br with
      | cont =>
          simp only [runChain, hr, List.map_append]
          rcases hsh with ⟨he, _, _, _⟩ | ⟨r, he, _, _, _⟩
          · subst he
            simp only [List.map_nil, List.nil_append]
            exact (ih cv1 s1).cons k
          · subst he
            simp only [List.map_cons, List.map_nil, List.singleton_append]
            exact (ih cv1 s1).cons₂ k
      | abortJob =>
          simp only [runChain, hr]
          rcases hsh with ⟨he, _, _, hbr | hbr⟩ | ⟨r, he, _, _, _⟩
          · cases hbr
          · cases hbr
          · subst he
            simp only [List.map_cons, List.map_nil]
            exact (List.nil_sublist rest).cons₂ k
      | raised =>
          simp only [runChain, hr]
          rcases hsh with ⟨he, _, _, _⟩ | ⟨r, he, _, _, _⟩
          · subst he
            simp
          · subst he
            simp only [List.map_cons, List.map_nil]
            exact (List.nil_sublist rest).cons₂ k

lemma runStage_kinds_sublist (st : StageSpec) (env : StageEnv) (cv : CloneVar) (s : Summary) :
    (((runStage st env cv s).2.2.1).map Event.kind).Sublist canonicalOrder := by
  rcases hr : runChain canonicalOrder st env cv s with ⟨s1, cv1, evs1, br⟩
  have hsub := runChain_kinds_sublist canonicalOrder st env cv s
  rw [hr] at hsub
  unfold runStage
  rw [hr]
  cases br <;> simpa using hsub

lemma runTaskCore_disabled (k : TaskKind) (cfg : TaskConfig) (ign : Bool) (env : StageEnv)
    (cv : CloneVar) (s : Summary) (hen : cfg.enabled.getD false = false) :
    runTaskCore k cfg ign env cv s = (s, cv, [], .cont) := by
  simp [runTaskCore, hen]

lemma runTaskCore_unbound (k : TaskKind) (cfg : TaskConfig) (ign : Bool) (env : StageEnv)
    (s : Summary) (hneed : needsCloneDir k = true) (hen : cfg.enabled.getD false = true) :
    runTaskCore k cfg ign env none s = (s, none, [], .raised) := by
  cases k <;> first
    | (simp [runTaskCore, hen, invokeTask]; done)
    | exact absurd hneed (by simp [needsCloneDir])

lemma runChain_all_disabled (ks : List TaskKind) (st : StageSpec) (env : StageEnv)
    (hdis : ∀ p ∈ st.tasks, p.2.enabled.getD false = false) :
    ∀ cv s, runChain ks st env cv s = (s, cv, [], .cont) := by
  have hlk : ∀ key, (lookupTask st.tasks key).enabled.getD false = false := by
    intro key
    unfold lookupTask
    rcases hf : st.tasks.find? (fun p => p.1 == key) with _ | p
    · rw [hf]
      rfl
    · rw [hf]
      exact hdis p (List.mem_of_find?_eq_some hf)
  induction ks with
  | nil => intro cv s; rfl
  | cons k rest ih =>
      intro cv s
      have h1 : runTask k st env cv s = (s, cv, [], .cont) := by
        unfold runTask
        exact runTaskCore_disabled _ _ _ _ _ _ (hlk (kindName k))
      simp [runChain, h1, ih]

lemma runStage_all_disabled (st : StageSpec) (env : StageEnv)
    (hdis : ∀ p ∈ st.tasks, p.2.enabled.getD false = false) (cv : CloneVar) (s : Summary) :
    runStage st env cv s = (s, cv, [], .done) := by
  unfold runStage
  rw [runChain_all_disabled canonicalOrder st env hdis cv s]

/-- C1 (counterexample): `completed + failed` does not equal the number of
definitive outcomes: at `c1job` the single failing `sh` invocation (one
definitive outcome) increments `failed` twice — once inside `run_shell_steps`
(src/build_agent.py:831) and once at the dispatcher (line 127) — so the
summary ends at completed 0, failed 2 while exactly one invocation returned a
definitive outcome. -/
theorem C1_counterexample :
    ¬ ((execute_build_stages_jobs [c1job]).1.completed
        + (execute_build_stages_jobs [c1job]).1.failed
        = definitiveCount (execute_build_stages_jobs [c1job]).2) := by
  decide

/-- C1 (amended): within each job — which the engine runs strictly
single-threaded — `completed + failed` grows by at least the number of task
invocations of that job that returned a definitive outcome: a success adds at
least one to `completed`, and a failure adds one to `failed` at the dispatcher
plus one more inside the handler whenever the handler also records the failure
itself (notification and approval failures, and skip-like falsy returns that
record nothing — such as an enabled shell task with an empty steps list — add
only the dispatcher's one).  Consequently, at the instant a batch whose
counter updates were not interleaved completes — in particular any single-job
batch, which gets exactly one worker thread — `completed + failed` is at
least the number of definitive outcomes of the batch.  No such batch-end
bound holds for interleaved workers: the source's unsynchronised increments
can lose updates and drop the total below the definitive count. -/
theorem C1_amended_definitive_lower_bound :
    (∀ (job : List (StageSpec × StageEnv)) (s : Summary),
        wsum s + definitiveCount (process_single_item job s).2
          ≤ wsum (process_single_item job s).1) ∧
    ∀ job : List (StageSpec × StageEnv),
      definitiveCount (execute_build_stages_jobs [job]).2
        ≤ (execute_build_stages_jobs [job]).1.completed
          + (execute_build_stages_jobs [job]).1.failed := by
  have hjob : ∀ (job : List (StageSpec × StageEnv)) (s : Summary),
      wsum s + definitiveCount (process_single_item job s).2
        ≤ wsum (process_single_item job s).1 := by
    intro job s
    exact (runStages_spec job none s _ _ rfl).2
  refine ⟨hjob, ?_⟩
  intro job
  rcases hp : process_single_item job Summary.init with ⟨s1, evs1⟩
  have h2 := (runStages_spec job none Summary.init s1 evs1 hp).2
  have he : execute_build_stages_jobs [job] = (s1, evs1 ++ []) := by
    simp only [execute_build_stages_jobs, runJobsSeq, hp]
  rw [he]
  show definitiveCount (evs1 ++ []) ≤ s1.completed + s1.failed
  rw [List.append_nil]
  simp only [wsum, Summary.init] at h2
  omega

/-- C2: for every job and every starting summary, a handler invocation whose
dispatcher-observed result is falsy inside a stage whose `ignore_failure` flag
is false is the last handler invocation of the entire job: the dispatcher
executes `return` (the pattern at src/build_agent.py:77-79 and its copies),
which skips the remaining tasks of that stage and, because the stage loop runs
inside the same function, every task of every later stage of the job. -/
theorem C2_cascading_abort (job : List (StageSpec × StageEnv)) (s : Summary)
    (t1 t2 : List Event) (e : Event)
    (h : (process_single_item job s).2 = t1 ++ e :: t2)
    (hign : e.ignore_failure = false) (hres : e.res = PyRes.ok false) : t2 = [] :=
  runStages_fatal job none s _ _ rfl t1 e t2 h ⟨hign, hres⟩

/-- C2 (witness): the cascading-abort theorem applied to `c2job`, whose trace
is exactly one falsy `bash` invocation in a non-ignored stage. -/
theorem C2_cascading_abort_witness : ([] : List Event) = [] :=
  C2_cascading_abort c2job Summary.init [] []
    ⟨TaskKind.bash, false, PyRes.ok false⟩ (by decide) rfl rfl

/-- C3 (counterexample): a handler error in stage 1 of `c3job` (whose
`ignore_failure` is false) does not prevent stage 2 from running: the stage-2
`sh` task is invoked, refuting "the remaining stages of the job are not
executed".  The stage-boundary `except` (src/build_agent.py:316-319) only
increments `failed` and falls through to the next loop iteration; it never
executes `return`. -/
theorem C3_counterexample :
    ¬ (∀ e ∈ (process_single_item c3job Summary.init).2, e.kind ≠ TaskKind.sh) := by
  decide

/-- C3 (amended): an unexpected error raised by a handler is caught at the
stage boundary and converted into one `failed` increment, and the remaining
tasks of that stage are skipped; but the job then continues with its next
stage regardless of `ignore_failure` — the abort rule for returned failures
(cascading `return`) is not applied to caught exceptions. -/
theorem C3_amended_exception_continues_next_stage (st : StageSpec) (env : StageEnv)
    (rest : List (StageSpec × StageEnv)) (cv : CloneVar) (s s1 : Summary) (cv1 : CloneVar)
    (evs : List Event)
    (h : runChain canonicalOrder st env cv s = (s1, cv1, evs, BlockRes.raised)) :
    runStages ((st, env) :: rest) cv s
      = ((runStages rest cv1 s1.addFailed).1,
         evs ++ (runStages rest cv1 s1.addFailed).2) := by
  simp only [runStages, runStage, h]

/-- C3 (witness): the amended theorem applied to the raising stage of `c3job`
followed by its second stage. -/
theorem C3_amended_witness :
    runStages [(c3stage1, c3env1), (c3stage2, c3env2)] none Summary.init
      = ((runStages [(c3stage2, c3env2)] none Summary.init.addFailed).1,
         [⟨TaskKind.setup_and_clone, false, PyRes.raised⟩]
           ++ (runStages [(c3stage2, c3env2)] none Summary.init.addFailed).2) :=
  C3_amended_exception_continues_next_stage c3stage1 c3env1 [(c3stage2, c3env2)] none
    Summary.init Summary.init none [⟨TaskKind.setup_and_clone, false, PyRes.raised⟩]
    (by decide)

/-- C4: in a stage whose `ignore_failure` flag is true, no task block ever
executes `return`: a falsy handler result makes the block increment `failed`
and fall through to the next task kind of the canonical chain, and the stage
never signals a job abort. -/
theorem C4_ignore_failure_continues (st : StageSpec) (env : StageEnv) (cv : CloneVar)
    (s : Summary) (k : TaskKind) (s' : Summary) (cv' : CloneVar) (evs : List Event)
    (br : BlockRes) (hign : st.ignore_failure.getD false = true)
    (h : runTask k st env cv s = (s', cv', evs, br)) :
    br ≠ BlockRes.abortJob ∧
    (∀ e ∈ evs, e.res = PyRes.ok false → br = BlockRes.cont ∧ s.failed < s'.failed) ∧
    (∀ s2 cv2 evs2 sr, runStage st env cv s = (s2, cv2, evs2, sr) →
      sr ≠ StageRes.jobAbort) := by
  have hc := runTask_cases _ _ _ _ _ _ _ _ _ h
  refine ⟨?_, ?_, ?_⟩
  · rcases hc.2.2 with ⟨_, _, _, hbr | hbr⟩ | ⟨r, _, hab, _, _⟩
    · rw [hbr]; simp
    · rw [hbr]; simp
    · intro habs
      have hx := hab.mp habs
      rw [hign] at hx
      cases hx.2
  · intro e hmem hres
    rcases hc.2.2 with ⟨he, _, _, _⟩ | ⟨r, he, hab, hrs, hbump⟩
    · rw [he] at hmem
      exact absurd hmem (by simp)
    · rw [he] at hmem
      simp only [List.mem_singleton] at hmem
      subst hmem
      have hr : r = PyRes.ok false := hres
      constructor
      · cases br with
        | cont => rfl
        | abortJob =>
            have hx := hab.mp rfl
            rw [hign] at hx
            cases hx.2
        | raised =>
            have hx := hrs.mp rfl
            rw [hr] at hx
            cases hx
      · exact hbump hr
  · intro s2 cv2 evs2 sr hst
    exact runStage_no_abort st env cv s hign _ _ _ _ hst

/-- C4 (witness): the theorem applied to `c4stage`: the failing `sh` block
counts the failure (failed goes from 0 to 2: handler plus dispatcher) and ends
with fall-through, and the stage never aborts the job. -/
theorem C4_ignore_failure_continues_witness :
    BlockRes.cont ≠ BlockRes.abortJob ∧
    (∀ e ∈ ([⟨TaskKind.sh, true, PyRes.ok false⟩] : List Event),
      e.res = PyRes.ok false →
        BlockRes.cont = BlockRes.cont ∧ Summary.init.failed < (⟨0, 2, 0⟩ : Summary).failed) ∧
    (∀ s2 cv2 evs2 sr, runStage c4stage c4env none Summary.init = (s2, cv2, evs2, sr) →
      sr ≠ StageRes.jobAbort) :=
  C4_ignore_failure_continues c4stage c4env none Summary.init TaskKind.sh ⟨0, 2, 0⟩ none
    [⟨TaskKind.sh, true, PyRes.ok false⟩] BlockRes.cont (by decide) (by decide)

/-- C5: the stage dispatcher walks the engine-fixed canonical kind order
(`canonicalOrder`, the textual order of the if-blocks: setup_and_clone,
docker_build, docker_hub, sh, bash, maven, send_notification, gradle, trivy,
yarn, go_build, npm, sonarqube_analysis, request_approval): the whole stage
outcome — summary, `clone_dir`, invocation trace and abort signal — is
invariant under any permutation of the insertion order of the stage's task
map (whose keys are distinct, as in a YAML mapping), and the sequence of
invoked kinds is always a subsequence of `canonicalOrder`. -/
theorem C5_canonical_dispatch_perm_invariant (st : StageSpec) (env : StageEnv)
    (cv : CloneVar) (s : Summary) (tasks1 tasks2 : List (String × TaskConfig))
    (hperm : tasks1.Perm tasks2) (hnd : (tasks1.map Prod.fst).Nodup) :
    runStage { st with tasks := tasks1 } env cv s
      = runStage { st with tasks := tasks2 } env cv s
    ∧ (((runStage { st with tasks := tasks1 } env cv s).2.2.1).map Event.kind).Sublist
        canonicalOrder :=
  ⟨runStage_congr { st with tasks := tasks1 } { st with tasks := tasks2 }
      (lookupTask_perm tasks1 tasks2 hperm hnd) rfl env cv s,
   runStage_kinds_sublist _ env cv s⟩

/-- C5 (witness): the permutation-invariance theorem applied to a stage whose
two tasks are inserted in the two possible orders. -/
theorem C5_canonical_dispatch_witness :
    runStage { c5base with tasks := c5tasks1 } c5env none Summary.init
      = runStage { c5base with tasks := c5tasks2 } c5env none Summary.init
    ∧ (((runStage { c5base with tasks := c5tasks1 } c5env none
          Summary.init).2.2.1).map Event.kind).Sublist canonicalOrder :=
  C5_canonical_dispatch_perm_invariant c5base c5env none Summary.init c5tasks1 c5tasks2
    (by decide) (by decide)

/-- C6 (code behaviour at the failing input): an enabled `sh` task with an
empty steps list — which `run_shell_steps` reports as "No shell commands
provided; skipping" and which touches no counter inside the handler
(src/build_agent.py:816-819) — returns `False` to the dispatcher, which counts
it as a failure (`failed` becomes 1) and, the stage's `ignore_failure` being
false, aborts the job: the second stage's `bash` task is never invoked and
`completed` stays 0. -/
theorem C6_empty_steps_counted_as_failure :
    process_single_item c6job Summary.init
      = ({ completed := 0, failed := 1, uploaded := 0 },
         [⟨TaskKind.sh, false, PyRes.ok false⟩]) := by
  decide

/-- C7 (counterexample): at `c7job` the chain raises (UnboundLocalError while
evaluating the `clone_dir` argument, src/build_agent.py:87) and the job trace
contains no invocation at all — in particular no invocation returning a falsy
result — refuting "invoking that task fails with a descriptive failure result
rather than crashing with an uncaught error". -/
theorem C7_counterexample :
    (runChain canonicalOrder c7stage {} none Summary.init).2.2.2 = BlockRes.raised
    ∧ ¬ (∃ e, e ∈ (process_single_item c7job Summary.init).2
          ∧ e.res = PyRes.ok false) := by
  decide

/-- C7 (amended): when a task kind whose call site passes `clone_dir`
(docker_build, maven, gradle, yarn, go_build, npm, sonarqube_analysis) is
enabled but no setup/clone block has run in the job, the block raises before
the handler is invoked — no handler runs, no result is returned, no counter
changes in the block — and the exception propagates to the stage boundary
(where it is caught, counted as one failure, and the job continues with the
next stage). -/
theorem C7_amended_unbound_clone_dir_raises (k : TaskKind) (st : StageSpec)
    (env : StageEnv) (s : Summary) (hneed : needsCloneDir k = true)
    (hen : (lookupTask st.tasks (kindName k)).enabled.getD false = true) :
    runTask k st env none s = (s, none, [], BlockRes.raised) := by
  unfold runTask
  exact runTaskCore_unbound _ _ _ _ _ hneed hen

/-- C7 (witness): the amended theorem applied to `c7stage`. -/
theorem C7_amended_witness :
    runTask TaskKind.docker_build c7stage {} none Summary.init
      = (Summary.init, none, [], BlockRes.raised) :=
  C7_amended_unbound_clone_dir_raises TaskKind.docker_build c7stage {} Summary.init
    (by decide) (by decide)

/-- C8: a job in which every task of every stage is disabled (its `enabled`
key absent or false) leaves the summary exactly as it was and produces no
handler invocation. -/
theorem C8_all_disabled_no_effect (job : List (StageSpec × StageEnv)) (s : Summary)
    (hdis : ∀ p ∈ job, ∀ t ∈ (p.1).tasks, t.2.enabled.getD false = false) :
    process_single_item job s = (s, []) := by
  have hmain : ∀ (stages : List (StageSpec × StageEnv)),
      (∀ p ∈ stages, ∀ t ∈ (p.1).tasks, t.2.enabled.getD false = false) →
      ∀ cv s0, runStages stages cv s0 = (s0, []) := by
    intro stages
    induction stages with
    | nil => intro _ cv s0; rfl
    | cons q rest ih =>
        intro hd cv s0
        obtain ⟨st, env⟩ := q
        have h1 : runStage st env cv s0 = (s0, cv, [], .done) :=
          runStage_all_disabled st env (fun t ht => hd (st, env) (by simp) t ht) cv s0
        simp [runStages, h1,
          ih (fun p hp t ht => hd p (List.mem_cons_of_mem _ hp) t ht)]
  exact hmain job hdis none s

/-- C8 (witness): the all-disabled theorem applied to `c8job`. -/
theorem C8_all_disabled_witness :
    process_single_item c8job Summary.init = (Summary.init, []) :=
  C8_all_disabled_no_effect c8job Summary.init (by decide)

/-- C9 (code behaviour): the source's `summary["failed"] += 1` executed by two
concurrent job workers with no lock is a read micro-operation followed by a
write micro-operation on the shared counter; under the interleaving
read-read-write-write both workers complete their increment yet the shared
counter ends at 1 instead of 2 (a lost update), while the fully sequential
interleaving ends at 2. -/
theorem C9_lost_update :
    (runSched [true, false, true, false] initRace).shared = 1
    ∧ (runSched [true, true, false, false] initRace).shared = 2 := by
  decide

/-- C10: no handler and no dispatcher branch ever increments the `uploaded`
counter: for every batch and every configuration, the reported `uploaded`
count at the end of `execute_build_stages` equals 0, its initial value. -/
theorem C10_uploaded_never_incremented (jobs : List (List (StageSpec × StageEnv))) :
    (execute_build_stages_jobs jobs).1.uploaded = 0 := by
  have hmain : ∀ js (s : Summary), (runJobsSeq js s).1.uploaded = s.uploaded := by
    intro js
    induction js with
    | nil => intro s; rfl
    | cons j rest ih =>
        intro s
        rcases hj : process_single_item j s with ⟨s1, evs1⟩
        have h1 := runStages_spec j none s _ _ hj
        simp only [runJobsSeq, hj]
        rw [ih s1]
        exact h1.1.2.2
  show (runJobsSeq jobs Summary.init).1.uploaded = 0
  rw [hmain jobs Summary.init]
  rfl

